import Mathlib

/-!
Verification development for the `static_init` crate's core:
the thread-exit finalizer registries of `src/at_thread_exit.rs`
(status machine, windows/cxa/pthread/fall_back backends) and the
`Phase` word of `src/lib.rs`, plus a spec-modelled Once algorithm
(the `once.rs` module is declared in `lib.rs` but its source is not
part of this tree).

Conventions of the embedding:
* finalizer nodes are identified by natural numbers; each node's
  intrusive `next` cell is a `Nat → Option Nat` map, and the
  thread-local `REGISTER` head is an `Option Nat`;
* a node's `const_drop` behaviour is abstracted by `prog : Nat → List Nat`,
  the list of node ids it registers while it runs;
* Rust panics (failed `assert!`) are modelled as `none` of an `Option`
  result; machine integers are `Nat` with `USIZE_MAX = 2 ^ 64 - 1`;
* loops are given explicit fuel; every theorem either supplies enough
  fuel or evaluates on concrete inputs.
-/

namespace StaticInit

/-- The `Status` enum of `at_thread_exit.rs` (lines 29-44). -/
inductive Status
  | NonRegistered
  | Registrating
  | Registered
  | Executing
  | Executed
  | RegistrationClosed
deriving DecidableEq

namespace AtThreadLocalExit

/-- Embedding of `AtThreadLocalExit::register` (at_thread_exit.rs lines 76-91).
`closed` is the value returned by the backend's `registration_closed()` and
`rote` the value returned by `register_on_thread_exit`.  The result is the
pair of the returned `Result` (with `none` standing for the panic of the
`assert!` at line 84, which leaves the status cell at `Registrating`) and
the final content of the status cell. -/
def register (closed rote : Bool) (st : Status) : Option (Except Status Unit) × Status :=
  if st = Status.NonRegistered then
    if closed then (some (Except.error Status.RegistrationClosed), Status.RegistrationClosed)
    else if rote then (some (Except.ok ()), Status.Registered)
    else (none, Status.Registrating)
  else (some (Except.error st), st)

/-- Embedding of `<AtThreadLocalExit as OnThreadExit>::execute`
(at_thread_exit.rs lines 95-100): the status cell is set to `Executing`,
`const_drop` runs (observing `status() = Executing`), then the cell is set
to `Executed`.  The pair is (status observable while `const_drop` runs,
final status). -/
def execute (_st : Status) : Status × Status :=
  (Status.Executing, Status.Executed)

end AtThreadLocalExit

/-- The status-cell writes the code performs, as a step relation: line 80
(`NonRegistered → RegistrationClosed`), line 83 (`NonRegistered →
Registrating`), line 85 (`Registrating → Registered`), line 97
(`Registered → Executing`, the drain executes registered nodes, cf. the
debug assertion commented at line 96) and line 99 (`Executing → Executed`). -/
inductive CodeStep : Status → Status → Prop
  | closeReg : CodeStep Status.NonRegistered Status.RegistrationClosed
  | startReg : CodeStep Status.NonRegistered Status.Registrating
  | finishReg : CodeStep Status.Registrating Status.Registered
  | startExec : CodeStep Status.Registered Status.Executing
  | finishExec : CodeStep Status.Executing Status.Executed

/-- Progress measure on `Status`: the registration chain in order, with the
terminal `RegistrationClosed` branch on top. -/
def rank : Status → Nat
  | Status.NonRegistered => 0
  | Status.Registrating => 1
  | Status.Registered => 2
  | Status.Executing => 3
  | Status.Executed => 4
  | Status.RegistrationClosed => 5

/-- Pointwise update of a `next`-cell map. -/
def updFn (f : Nat → Option Nat) (k : Nat) (v : Option Nat) : Nat → Option Nat :=
  fun x => if x = k then v else f x

/-- The per-thread registry data shared by all backends: the `REGISTER`
head cell, every node's `next` cell, and the trace of `execute` calls. -/
structure RegState where
  reg : Option Nat
  next : Nat → Option Nat
  executed : List Nat

/-- Fresh registry: no head, every `next` cell `None` (`COMPLETE_INIT`),
nothing executed. -/
def regInit : RegState := { reg := none, next := fun _ => none, executed := [] }

/-- The `next`-cell contents of an intrusive chain whose nodes, from the
head on, are the elements of `l`. -/
def chainFun : List Nat → Nat → Option Nat
  | [], _ => none
  | a :: t, x => if x = a then t.head? else chainFun t x

namespace windows

/-- Thread-local state of the `windows` backend: the registry plus the
`DONE` cell (at_thread_exit.rs lines 160-164). -/
structure WinState where
  rs : RegState
  done : Bool

/-- Embedding of `windows::register_on_thread_exit` (lines 166-174):
refused if `DONE` is set, otherwise `r.set_next(REGISTER.take())` and
`REGISTER.set(Some(r))`. -/
def register_on_thread_exit (s : WinState) (r : Nat) : WinState × Bool :=
  if s.done then (s, false)
  else
    ({ s with
        rs := { reg := some r
                next := updFn s.rs.next r s.rs.reg
                executed := s.rs.executed } }, true)

/-- One `r.execute()` during the windows drain: the node is appended to the
execution trace and its `const_drop` registers the nodes of `prog r`, in
order, through `windows::register_on_thread_exit` (`DONE` is still unset
at that point, so those calls take the push branch). -/
def execNode (prog : Nat → List Nat) (s : WinState) (r : Nat) : WinState :=
  (prog r).foldl (fun st j => (register_on_thread_exit st j).1)
    { s with rs := { s.rs with executed := s.rs.executed ++ [r] } }

/-- The drain loop of `windows::destroy` (lines 132-138) as written in the
source: `o_ptr = r.take_next();` followed by `o_ptr.or_else(|| REGISTER.take());`
whose result is discarded - so `REGISTER.take()` still empties the head
cell when `take_next` returned `None`, but its value is lost and the loop
exits. -/
def drainLoop (prog : Nat → List Nat) : Nat → Option Nat → WinState → WinState
  | 0, _, s => s
  | _ + 1, none, s => s
  | fuel + 1, some p, s =>
    let s1 := execNode prog s p
    let o2 := s1.rs.next p
    let s2 : WinState := { s1 with rs := { s1.rs with next := updFn s1.rs.next p none } }
    match o2 with
    | some x => drainLoop prog fuel (some x) s2
    | none => drainLoop prog fuel none { s2 with rs := { s2.rs with reg := none } }

/-- Embedding of `windows::destroy` (lines 128-141): on `DLL_THREAD_DETACH`
(3) or `DLL_PROCESS_DETACH` (0) take the register head, run the drain
loop, then set `DONE`. -/
def destroy (prog : Nat → List Nat) (reason : Nat) (fuel : Nat) (s : WinState) : WinState :=
  if reason = 3 ∨ reason = 0 then
    let s1 : WinState := { s with rs := { s.rs with reg := none } }
    let s2 := drainLoop prog fuel s.rs.reg s1
    { s2 with done := true }
  else s

/-- Embedding of `windows::registration_closed` (lines 176-178). -/
def registration_closed (s : WinState) : Bool := s.done

end windows

namespace cxa

/-- Thread-local state of the `cxa` backend: the registry, the `DESTROYING`
cell, and whether `execute_destroy` has been installed through
`__cxa_thread_atexit_impl`. -/
structure CxaState where
  rs : RegState
  destroying : Bool
  hooked : Bool

/-- Fresh cxa thread state. -/
def cxaInit : CxaState := { rs := regInit, destroying := false, hooked := false }

/-- Embedding of `cxa::register_on_thread_exit` (lines 229-238) together
with `cxa::at_thread_exit` (lines 198-209).  `implNull` says whether the
weak symbol `__cxa_thread_atexit_impl` is null; `at_thread_exit` asserts
it is not (line 204), so on the branch that calls it with a null symbol
the result is `none` (panic).  Otherwise the node is pushed and the call
returns `true`. -/
def register_on_thread_exit (implNull : Bool) (s : CxaState) (r : Nat) :
    Option (CxaState × Bool) :=
  match s.rs.reg with
  | some o =>
    some ({ s with
        rs := { reg := some r
                next := updFn s.rs.next r (some o)
                executed := s.rs.executed } }, true)
  | none =>
    if s.destroying then
      some ({ s with rs := { s.rs with reg := some r } }, true)
    else if implNull then none
    else
      some ({ s with
          hooked := true
          rs := { s.rs with reg := some r } }, true)

/-- Embedding of `cxa::registration_closed` (lines 240-242). -/
def registration_closed : Bool := false

/-- One `r.execute()` during the cxa drain: append to the trace, then run
the registrations of `prog r` (with `DESTROYING` set the push branch never
calls `at_thread_exit`, so the `getD` default is dead code). -/
def execNode (implNull : Bool) (prog : Nat → List Nat) (s : CxaState) (r : Nat) : CxaState :=
  (prog r).foldl (fun st j => ((register_on_thread_exit implNull st j).getD (st, false)).1)
    { s with rs := { s.rs with executed := s.rs.executed ++ [r] } }

/-- The drain loop of `cxa::execute_destroy` (lines 219-224):
`o_ptr = r.take_next().or_else(|| REGISTER.take());`. -/
def drainLoop (implNull : Bool) (prog : Nat → List Nat) :
    Nat → Option Nat → CxaState → CxaState
  | 0, _, s => s
  | _ + 1, none, s => s
  | fuel + 1, some p, s =>
    let s1 := execNode implNull prog s p
    let o2 := s1.rs.next p
    let s2 : CxaState := { s1 with rs := { s1.rs with next := updFn s1.rs.next p none } }
    match o2 with
    | some x => drainLoop implNull prog fuel (some x) s2
    | none => drainLoop implNull prog fuel s2.rs.reg { s2 with rs := { s2.rs with reg := none } }

/-- Embedding of `cxa::execute_destroy` (lines 217-226). -/
def execute_destroy (implNull : Bool) (prog : Nat → List Nat) (fuel : Nat) (s : CxaState) :
    CxaState :=
  let s1 : CxaState := { s with destroying := true }
  let s2 := drainLoop implNull prog fuel s1.rs.reg { s1 with rs := { s1.rs with reg := none } }
  { s2 with destroying := false }

/-- Registrations performed before thread exit, in order (each one through
`register_on_thread_exit` with the weak symbol present). -/
def registerList (rs : List Nat) (s : CxaState) : CxaState :=
  rs.foldl (fun st r => ((register_on_thread_exit false st r).getD (st, false)).1) s

end cxa

/-- The value `usize::MAX`, sentinel of `pthread::DESTRUCTOR_KEY` (line 261). -/
def USIZE_MAX : Nat := 2 ^ 64 - 1

namespace pthread

/-- The bound `_POSIX_THREAD_DESTRUCTOR_ITERATIONS` (line 259). -/
def DESTRUCTOR_ITERATIONS : Nat := 4

/-- State of the `pthread` backend relevant to one thread: the shared
`DESTRUCTOR_KEY` slot, the thread-local `ITERATION_COUNT`, whether the
thread-specific value of the key is non-null, the registry, and the
histories of keys created and deleted through the pthread API. -/
structure PtState where
  destructorKey : Nat
  iterationCount : Nat
  specific : Bool
  rs : RegState
  created : List Nat
  deleted : List Nat

/-- Fresh pthread state (key slot at the `usize::MAX` sentinel). -/
def ptInit : PtState :=
  { destructorKey := USIZE_MAX, iterationCount := 0, specific := false
    rs := regInit, created := [], deleted := [] }

/-- The key-creation loop of `pthread::register_on_thread_exit`
(lines 280-313), written exactly as in the source: each iteration calls
`pthread_key_create`, whose outcome is the next element of `creates`
(`some k` = the call returned 0 and created key `k`, `none` = the call
failed).  On a successful create the code reloads `DESTRUCTOR_KEY` and
either breaks with that value or returns `false` (`none` here); on a
failed create it runs the delete/compare-exchange block, where a
successful compare-exchange binds `Ok(k) => k`, the previous value
`usize::MAX`.  `key` is the loop variable, `lk` the out-parameter of
`pthread_key_create` (initially 0, only written by a successful create).
An exhausted `creates` list with the loop still running is answered with
`none`; the theorems below never reach that case. -/
def keyLoop : List (Option Nat) → Nat → Nat → PtState → Option Nat × PtState
  | creates, key, lk, s =>
    if key = USIZE_MAX then
      match creates with
      | [] => (none, s)
      | some k :: _rest =>
        let s1 : PtState := { s with created := s.created ++ [k] }
        let key2 := s1.destructorKey
        let _ := lk
        let _ := k
        if key2 = USIZE_MAX then (none, s1) else (some key2, s1)
      | none :: rest =>
        if lk = USIZE_MAX then
          keyLoop rest key lk { s with deleted := s.deleted ++ [lk] }
        else if s.destructorKey = USIZE_MAX then
          keyLoop rest USIZE_MAX lk { s with destructorKey := lk }
        else
          keyLoop rest s.destructorKey lk { s with deleted := s.deleted ++ [lk] }
    else (some key, s)

/-- Embedding of `pthread::register_on_thread_exit` (lines 279-335).
`setspecOk` is whether `pthread_setspecific` returns 0 (success).  After
the key phase: if the thread-specific value is null and the iteration
count is below the bound, the source tests `pthread_setspecific(..) == 0`
and returns `false` when the call succeeded (the value having been
associated), and on a failed call increments `ITERATION_COUNT` and falls
through to the push; with the bound exhausted it returns `false`. -/
def register_on_thread_exit (creates : List (Option Nat)) (setspecOk : Bool)
    (s : PtState) (r : Nat) : Bool × PtState :=
  match keyLoop creates s.destructorKey 0 s with
  | (none, s1) => (false, s1)
  | (some _key, s1) =>
    let push : PtState → PtState := fun st =>
      { st with
          rs := { reg := some r
                  next := updFn st.rs.next r st.rs.reg
                  executed := st.rs.executed } }
    if s1.specific = false then
      if s1.iterationCount < DESTRUCTOR_ITERATIONS then
        if setspecOk then (false, { s1 with specific := true })
        else (true, push { s1 with iterationCount := s1.iterationCount + 1 })
      else (false, s1)
    else (true, push s1)

/-- Embedding of `pthread::registration_closed` (lines 336-342): the iteration count has
hit the bound and the thread-specific value of the stored key is null. -/
def registration_closed (s : PtState) : Bool :=
  s.iterationCount == DESTRUCTOR_ITERATIONS && !s.specific

end pthread

namespace fall_back

/-- Embedding of `fall_back::register_on_thread_exit` (lines 354-356). -/
def register_on_thread_exit (_r : Nat) : Bool := false

/-- Embedding of `fall_back::registration_closed` (lines 358-360). -/
def registration_closed : Bool := true

end fall_back

/-- The status cell of one `AtThreadLocalExit` object on an unsupported
target, after `n` calls of `register` (initially `NonRegistered`, by
`COMPLETE_INIT`, lines 53-56). -/
def fallbackIter : Nat → Status
  | 0 => Status.NonRegistered
  | n + 1 =>
    (AtThreadLocalExit.register fall_back.registration_closed
      (fall_back.register_on_thread_exit 0) (fallbackIter n)).2

/-- The `Phase` enum of `lib.rs` (lines 500-525), `repr(u8)` with
consecutive discriminants 0 to 11. -/
inductive Phase
  | New
  | Initialization
  | FinalyRegistration
  | Initialized
  | FinalyExecution
  | Finalized
  | PostFinalyRegistrationFailure
  | InitializedWithoutFinaly
  | PostInitializationPanic
  | OnRegistrationFailurePanic
  | InitializedPostOnRegistrationFailure
  | PostFinalyExecutionPanic
deriving DecidableEq, BEq

/-- The `p as u8` cast: the discriminant of each `Phase` variant. -/
def Phase.asU8 : Phase → Nat
  | Phase.New => 0
  | Phase.Initialization => 1
  | Phase.FinalyRegistration => 2
  | Phase.Initialized => 3
  | Phase.FinalyExecution => 4
  | Phase.Finalized => 5
  | Phase.PostFinalyRegistrationFailure => 6
  | Phase.InitializedWithoutFinaly => 7
  | Phase.PostInitializationPanic => 8
  | Phase.OnRegistrationFailurePanic => 9
  | Phase.InitializedPostOnRegistrationFailure => 10
  | Phase.PostFinalyExecutionPanic => 11

/-- Inverse of the cast on the in-range values (the `transmute` of
`AtomicPhase::get`, line 534, applied to bytes written by `set`). -/
def Phase.ofU8 : Nat → Phase
  | 0 => Phase.New
  | 1 => Phase.Initialization
  | 2 => Phase.FinalyRegistration
  | 3 => Phase.Initialized
  | 4 => Phase.FinalyExecution
  | 5 => Phase.Finalized
  | 6 => Phase.PostFinalyRegistrationFailure
  | 7 => Phase.InitializedWithoutFinaly
  | 8 => Phase.PostInitializationPanic
  | 9 => Phase.OnRegistrationFailurePanic
  | 10 => Phase.InitializedPostOnRegistrationFailure
  | _ => Phase.PostFinalyExecutionPanic

/-- All twelve `Phase` variants, in declaration order. -/
def phaseList : List Phase :=
  [Phase.New, Phase.Initialization, Phase.FinalyRegistration, Phase.Initialized,
   Phase.FinalyExecution, Phase.Finalized, Phase.PostFinalyRegistrationFailure,
   Phase.InitializedWithoutFinaly, Phase.PostInitializationPanic,
   Phase.OnRegistrationFailurePanic, Phase.InitializedPostOnRegistrationFailure,
   Phase.PostFinalyExecutionPanic]

/-- The `AtomicPhase` wrapper (lib.rs lines 527-539): an `AtomicU8` holding a phase
discriminant. -/
structure AtomicPhase where
  val : Nat

/-- Embedding of `AtomicPhase::new` (line 530): byte 0. -/
def AtomicPhase.new : AtomicPhase := ⟨0⟩

/-- Embedding of `AtomicPhase::set` (line 536): store `p as u8`. -/
def AtomicPhase.set (_a : AtomicPhase) (p : Phase) : AtomicPhase := ⟨Phase.asU8 p⟩

/-- Embedding of `AtomicPhase::get` (line 533): transmute the loaded byte. -/
def AtomicPhase.get (a : AtomicPhase) : Phase := Phase.ofU8 a.val

/-- Phase word of the spec-modelled Once. -/
inductive OncePh
  | New
  | Initializing
  | Initialized
deriving DecidableEq

/-- Program counter of one thread racing on the Once: not yet started, won
the compare-and-swap (about to run the generator), or finished having
observed value `v`. -/
inductive TPc
  | start
  | winner
  | done (v : Nat)
deriving DecidableEq

/-- State of the spec-modelled Once: shared phase word, value cell, each
thread's program counter, and the number of generator executions. -/
structure OnceState where
  phase : OncePh
  value : Option Nat
  pcs : Nat → TPc
  genCount : Nat

/-- Initial Once state: phase `New`, empty cell, all threads at `start`. -/
def onceInit : OnceState :=
  { phase := OncePh.New, value := none, pcs := fun _ => TPc.start, genCount := 0 }

/-- Modelled from the spec: the Once family (`once.rs`, declared in
`lib.rs` line 486) is not part of this source tree.  Following spec
sections 4.1, 4.2 and 8: a first accessor's compare-and-swap moves the
phase from its initial state to initializing and makes it the single
winner; the winner runs the generator (`gen` is the produced value),
stores the result and publishes `Initialized`; a loser either parks while
the phase is initializing (no state change here) or, once the phase is
`Initialized`, reads the stored value.  `onceStep gen s t` is one step of
thread `t`. -/
def onceStep (gen : Nat) (s : OnceState) (t : Nat) : OnceState :=
  match s.pcs t with
  | TPc.start =>
    match s.phase with
    | OncePh.New =>
      { s with phase := OncePh.Initializing
               pcs := fun x => if x = t then TPc.winner else s.pcs x }
    | OncePh.Initializing => s
    | OncePh.Initialized =>
      { s with pcs := fun x => if x = t then TPc.done (s.value.getD 0) else s.pcs x }
  | TPc.winner =>
    { s with phase := OncePh.Initialized
             value := some gen
             genCount := s.genCount + 1
             pcs := fun x => if x = t then TPc.done gen else s.pcs x }
  | TPc.done _ => s

/-- Modelled from the spec: run the racing threads under an arbitrary
interleaving, given as the list of thread ids taking successive steps. -/
def onceRun (gen : Nat) (sched : List Nat) : OnceState :=
  sched.foldl (onceStep gen) onceInit

/-- Invariant of the spec-modelled Once race. -/
def OnceInv (gen : Nat) (s : OnceState) : Prop :=
  (∀ t v, s.pcs t = TPc.done v → v = gen ∧ s.phase = OncePh.Initialized) ∧
  (s.phase = OncePh.New → s.genCount = 0) ∧
  (s.phase = OncePh.Initializing → s.genCount = 0) ∧
  (s.phase = OncePh.Initialized → s.genCount = 1 ∧ s.value = some gen) ∧
  (∀ t, s.pcs t = TPc.winner → s.phase = OncePh.Initializing) ∧
  (∀ t u, s.pcs t = TPc.winner → s.pcs u = TPc.winner → t = u)

/-- The node-id program in which node 0 registers node 1 from inside its
own `const_drop`, and no other node registers anything. -/
def prog1 : Nat → List Nat := fun i => if i = 0 then [1] else []

/-- Windows thread state right after `register_on_thread_exit` accepted
node 0 on a fresh thread. -/
def c1WinStart : windows.WinState :=
  (windows.register_on_thread_exit { rs := regInit, done := false } 0).1

/-- Cxa thread state right after `register_on_thread_exit` accepted node 0
on a fresh thread (weak symbol present). -/
def c1CxaStart : cxa.CxaState :=
  ((cxa.register_on_thread_exit false cxa.cxaInit 0).getD (cxa.cxaInit, false)).1

/-- Pthread state for the C3 scenario: destructor key already created
(value 7), iteration count 0, thread-specific value null, empty registry. -/
def ptC3In : pthread.PtState :=
  { destructorKey := 7, iterationCount := 0, specific := false
    rs := regInit, created := [], deleted := [] }

/-- Every status cell the code writes is `NonRegistered` strictly before
the written value in `rank`. -/
lemma codeStep_rank_lt : ∀ s t : Status, CodeStep s t → rank s < rank t := by
  intro s t h
  cases h <;> decide

/-- No write of the code produces `NonRegistered`. -/
lemma codeStep_ne_nonRegistered : ∀ s t : Status, CodeStep s t → t ≠ Status.NonRegistered := by
  intro s t h
  cases h <;> decide

/-- The status cell of an unsupported-target object is always
`NonRegistered` or `RegistrationClosed`. -/
lemma fallbackIter_cases :
    ∀ n, fallbackIter n = Status.NonRegistered ∨ fallbackIter n = Status.RegistrationClosed := by
  intro n
  induction n with
  | zero => exact Or.inl rfl
  | succ n ih =>
    rcases ih with h | h <;>
      simp [fallbackIter, h, AtThreadLocalExit.register, fall_back.registration_closed,
        fall_back.register_on_thread_exit]

/-- C9: On unsupported targets (the fall_back backend),
`register_on_thread_exit` always returns false and `registration_closed`
always returns true, so starting from the `COMPLETE_INIT` status every
call of `AtThreadLocalExit::register` returns `Err(RegistrationClosed)`
and leaves the status cell at `RegistrationClosed` thereafter. -/
theorem c9_fallback_always_registration_closed :
    ∀ n : Nat,
      fall_back.register_on_thread_exit n = false ∧
      fall_back.registration_closed = true ∧
      (AtThreadLocalExit.register fall_back.registration_closed
          (fall_back.register_on_thread_exit 0) (fallbackIter n)).1
        = some (Except.error Status.RegistrationClosed) ∧
      fallbackIter (n + 1) = Status.RegistrationClosed := by
  intro n
  refine ⟨rfl, rfl, ?_, ?_⟩ <;>
    rcases fallbackIter_cases n with h | h <;>
      simp [fallbackIter, h, AtThreadLocalExit.register, fall_back.registration_closed,
        fall_back.register_on_thread_exit]

/-- C6: After a backend reports registration closed, every later attempt
fails explicitly: with `DONE` set the windows backend refuses (state
untouched, returns false); `windows::destroy` ends its drain by setting
`DONE`; and `AtThreadLocalExit::register` answers `Err` both when the
backend reports closed on a fresh object and on an object whose status
already is `RegistrationClosed` - never dropping a node silently. -/
theorem c6_closed_registration_always_fails :
    (∀ (rs : RegState) (r : Nat),
        windows.register_on_thread_exit { rs := rs, done := true } r
          = ({ rs := rs, done := true }, false)) ∧
    (∀ (prog : Nat → List Nat) (fuel : Nat) (rs : RegState) (d : Bool),
        (windows.destroy prog 3 fuel { rs := rs, done := d }).done = true) ∧
    (∀ rote : Bool,
        AtThreadLocalExit.register true rote Status.NonRegistered
          = (some (Except.error Status.RegistrationClosed), Status.RegistrationClosed)) ∧
    (∀ closed rote : Bool,
        AtThreadLocalExit.register closed rote Status.RegistrationClosed
          = (some (Except.error Status.RegistrationClosed), Status.RegistrationClosed)) :=
  ⟨fun _ _ => rfl, fun _ _ _ _ => rfl, fun _ => rfl, fun _ _ => rfl⟩

/-- C1 (code bug): on the windows backend, after node 0 (whose
`const_drop` registers node 1) was accepted on a fresh thread, the
thread-exit drain executes only node 0: node 1's registration during the
drain returned true (`DONE` still unset), yet `destroy` discards the
result of `o_ptr.or_else(|| REGISTER.take())`, so node 1 is removed from
the head cell and dropped unexecuted, and `DONE` is set.  The cxa drain
on the same scenario, whose loop is `o_ptr =
r.take_next().or_else(|| REGISTER.take());`, executes both nodes. -/
theorem c1_windows_drain_drops_reentrant_node :
    (windows.register_on_thread_exit { rs := regInit, done := false } 0).2 = true ∧
    (windows.register_on_thread_exit
        { rs := { reg := none, next := fun _ => none, executed := [0] }, done := false } 1).2
      = true ∧
    (windows.destroy prog1 3 4 c1WinStart).rs.executed = [0] ∧
    (windows.destroy prog1 3 4 c1WinStart).rs.reg = none ∧
    (windows.destroy prog1 3 4 c1WinStart).done = true ∧
    (cxa.execute_destroy false prog1 4 c1CxaStart).rs.executed = [0, 1] := by
  refine ⟨rfl, rfl, ?_, ?_, ?_, ?_⟩ <;> decide

/-- C3 (code bug): on the pthread backend with the key already created
(slot holds 7), iteration count 0 and a null thread-specific value, a
`register_on_thread_exit` call whose `pthread_setspecific` succeeds
associates the value but returns false - the node is never enqueued and
the iteration count stays 0 (`registration_closed` still false). -/
theorem c3_setspecific_success_refused :
    (pthread.register_on_thread_exit [] true ptC3In 0).1 = false ∧
    (pthread.register_on_thread_exit [] true ptC3In 0).2.specific = true ∧
    (pthread.register_on_thread_exit [] true ptC3In 0).2.iterationCount = 0 ∧
    (pthread.register_on_thread_exit [] true ptC3In 0).2.rs.reg = none ∧
    pthread.registration_closed ptC3In = false := by
  refine ⟨?_, ?_, ?_, ?_, ?_⟩ <;> decide

/-- C8 (code bug): a first registration in a fresh process whose
`pthread_key_create` succeeds (creating key 5) returns false, leaves
`DESTRUCTOR_KEY` at the `usize::MAX` sentinel - the compare-exchange is
never executed and the created key is neither published nor deleted.  And
when the first create fails and the second succeeds (creating key 9), the
compare-exchange publishes `lk`, still 0 and never created, while
`Ok(k) => k` yields the old sentinel so the winner loops and creates the
leaked key 9. -/
theorem c8_key_creation_never_published :
    (pthread.register_on_thread_exit [some 5] true pthread.ptInit 0).1 = false ∧
    (pthread.register_on_thread_exit [some 5] true pthread.ptInit 0).2.destructorKey
      = USIZE_MAX ∧
    (pthread.register_on_thread_exit [some 5] true pthread.ptInit 0).2.created = [5] ∧
    (pthread.register_on_thread_exit [some 5] true pthread.ptInit 0).2.deleted = [] ∧
    (pthread.register_on_thread_exit [none, some 9] true pthread.ptInit 0).2.destructorKey
      = 0 ∧
    (pthread.register_on_thread_exit [none, some 9] true pthread.ptInit 0).2.created = [9] ∧
    (pthread.register_on_thread_exit [none, some 9] true pthread.ptInit 0).2.deleted = [] := by
  refine ⟨?_, ?_, ?_, ?_, ?_, ?_, ?_⟩ <;> decide

/-- C4 counterexample: with the weak symbol `__cxa_thread_atexit_impl`
null, a first registration on a fresh cxa thread does not return false:
`at_thread_exit`'s assertion fails (`none` = panic), while
`cxa::registration_closed` reports the platform open. -/
theorem c4_counterexample_null_symbol_panics :
    cxa.register_on_thread_exit true cxa.cxaInit 0 = none ∧
    cxa.registration_closed = false :=
  ⟨rfl, rfl⟩

/-- C4 amended: when the weak symbol is null, a registration finding the
registry empty and the thread not draining panics on the assertion
instead of returning false; `registration_closed` reports false
regardless; and a registration finding a non-empty registry succeeds
without consulting the entry point, for any state of the symbol. -/
theorem c4_amended_null_symbol_behavior :
    (∀ (nx : Nat → Option Nat) (ex : List Nat) (h : Bool) (r : Nat),
        cxa.register_on_thread_exit true
          { rs := { reg := none, next := nx, executed := ex }, destroying := false, hooked := h } r
          = none) ∧
    cxa.registration_closed = false ∧
    (∀ (implNull : Bool) (nx : Nat → Option Nat) (ex : List Nat) (d h : Bool) (o r : Nat),
        cxa.register_on_thread_exit implNull
          { rs := { reg := some o, next := nx, executed := ex }, destroying := d, hooked := h } r
          = some ({ rs := { reg := some r, next := updFn nx r (some o), executed := ex }
                    destroying := d, hooked := h }, true)) :=
  ⟨fun _ _ _ _ => rfl, rfl, fun _ _ _ _ _ _ _ => rfl⟩

/-- C5 counterexample: the `Phase` discriminants are not disjoint bits -
`Initialization` (1) and `Initialized` (3) share bit 0 although they are
different statuses - so `Phase` is not a bit-set over independent
disjoint bits in which several facts coexist. -/
theorem c5_counterexample_phase_tags_overlap :
    Phase.asU8 Phase.Initialization &&& Phase.asU8 Phase.Initialized = 1 ∧
    (Phase.Initialization == Phase.Initialized) = false := by
  refine ⟨?_, ?_⟩ <;> decide

/-- C5 amended: `Phase` is a mutually exclusive tag enum - twelve
variants with the consecutive `u8` discriminants 0 to 11, stored whole in
an `AtomicU8` (`set`/`get` round-trip) and compared by equality on the
tag - not a bit-set: e.g. discriminant 3 (`Initialized`) is the bitwise
or of discriminants 1 and 2, so the values do not occupy disjoint bits. -/
theorem c5_amended_phase_exclusive_tag :
    (∀ p : Phase, p ∈ phaseList) ∧
    phaseList.Nodup ∧
    phaseList.map Phase.asU8 = [0, 1, 2, 3, 4, 5, 6, 7, 8, 9, 10, 11] ∧
    (∀ p : Phase, AtomicPhase.get (AtomicPhase.set AtomicPhase.new p) = p) ∧
    (∀ p : Phase, (p == p) = true) ∧
    Phase.asU8 Phase.Initialized
      = (Phase.asU8 Phase.Initialization ||| Phase.asU8 Phase.FinalyRegistration) := by
  refine ⟨fun p => by cases p <;> simp [phaseList], by decide, by decide,
    fun p => by cases p <;> rfl, fun p => by cases p <;> rfl, by decide⟩

/-- Registering `rs` in order onto a thread whose registry holds the chain
`p` (head first) yields the chain `rs.reverse ++ p`: each push makes the
new node the head and points its `next` cell at the previous head. -/
lemma registerList_chain :
    ∀ (rs p : List Nat) (s : cxa.CxaState), s.destroying = false →
      s.rs.reg = p.head? → (∀ x, s.rs.next x = chainFun p x) →
      (cxa.registerList rs s).destroying = false ∧
      (cxa.registerList rs s).rs.reg = (rs.reverse ++ p).head? ∧
      (∀ x, (cxa.registerList rs s).rs.next x = chainFun (rs.reverse ++ p) x) ∧
      (cxa.registerList rs s).rs.executed = s.rs.executed := by
  intro rs
  induction rs with
  | nil =>
    intro p s hd hr hn
    exact ⟨hd, by simpa using hr, by simpa using hn, rfl⟩
  | cons r rs' ih =>
    intro p s hd hr hn
    rcases p with _ | ⟨a, p'⟩
    · -- empty registry: the push installs the hook and sets the head
      simp only [List.head?] at hr
      have hstep : ((cxa.register_on_thread_exit false s r).getD (s, false)).1
          = { s with hooked := true, rs := { s.rs with reg := some r } } := by
        simp [cxa.register_on_thread_exit, hr, hd]
      have hrw : cxa.registerList (r :: rs') s
          = cxa.registerList rs'
              { s with hooked := true, rs := { s.rs with reg := some r } } := by
        simp [cxa.registerList, hstep]
      rw [hrw]
      have hres := ih [r] { s with hooked := true, rs := { s.rs with reg := some r } }
        hd rfl
        (by
          intro x
          have := hn x
          simp [chainFun] at this ⊢
          simp [this])
      simpa [List.reverse_cons, List.append_assoc] using hres
    · -- non-empty registry: the push chains the new node onto the old head
      simp only [List.head?] at hr
      have hstep : ((cxa.register_on_thread_exit false s r).getD (s, false)).1
          = { s with rs := { reg := some r, next := updFn s.rs.next r (some a)
                             executed := s.rs.executed } } := by
        simp [cxa.register_on_thread_exit, hr]
      have hrw : cxa.registerList (r :: rs') s
          = cxa.registerList rs'
              { s with rs := { reg := some r, next := updFn s.rs.next r (some a)
                               executed := s.rs.executed } } := by
        simp [cxa.registerList, hstep]
      rw [hrw]
      have hres := ih (r :: a :: p')
        { s with rs := { reg := some r, next := updFn s.rs.next r (some a)
                         executed := s.rs.executed } }
        hd rfl
        (by
          intro x
          by_cases hx : x = r <;> simp [updFn, hx, chainFun, hn x])
      simpa [List.reverse_cons, List.append_assoc] using hres

/-- The drain loop does nothing on an empty cursor. -/
lemma drainLoop_none (implNull : Bool) (prog : Nat → List Nat) :
    ∀ (fuel : Nat) (s : cxa.CxaState), cxa.drainLoop implNull prog fuel none s = s := by
  intro fuel s
  cases fuel <;> rfl

/-- Draining a chain `l` of nodes that register nothing executes exactly
the nodes of `l`, in chain order, and leaves the head cell empty. -/
lemma drain_chain (implNull : Bool) (prog : Nat → List Nat) :
    ∀ (l : List Nat) (fuel : Nat) (s : cxa.CxaState),
      l.Nodup → (∀ i ∈ l, prog i = []) → l.length ≤ fuel → s.rs.reg = none →
      (∀ x ∈ l, s.rs.next x = chainFun l x) →
      (cxa.drainLoop implNull prog fuel l.head? s).rs.executed = s.rs.executed ++ l ∧
      (cxa.drainLoop implNull prog fuel l.head? s).rs.reg = none := by
  intro l
  induction l with
  | nil =>
    intro fuel s _ _ _ hreg _
    simp only [List.head?]
    rw [drainLoop_none]
    exact ⟨by simp, hreg⟩
  | cons p t ih =>
    intro fuel s hnd hprog hfuel hreg hnext
    cases fuel with
    | zero => simp at hfuel
    | succ f =>
      have hpe : prog p = [] := hprog p (List.mem_cons_self _ _)
      have hnp : s.rs.next p = t.head? := by
        have h := hnext p (List.mem_cons_self _ _)
        simpa [chainFun] using h
      have hpt : p ∉ t := (List.nodup_cons.mp hnd).1
      have hndt : t.Nodup := (List.nodup_cons.mp hnd).2
      have hexec : cxa.execNode implNull prog s p
          = { s with rs := { s.rs with executed := s.rs.executed ++ [p] } } := by
        simp [cxa.execNode, hpe]
      rcases t with _ | ⟨x, t'⟩
      · -- last node of the chain: take_next is None, or_else takes the
        -- (empty) head cell and the loop ends
        have key : cxa.drainLoop implNull prog (f + 1) (some p) s
            = cxa.drainLoop implNull prog f none
                { s with rs := { reg := none
                                 next := updFn s.rs.next p none
                                 executed := s.rs.executed ++ [p] } } := by
          simp only [cxa.drainLoop, hexec]
          simp [hnp, hreg]
        simp only [List.head?]
        rw [key, drainLoop_none]
        exact ⟨by simp, rfl⟩
      · -- interior node: take_next yields the next chain element
        have key : cxa.drainLoop implNull prog (f + 1) (some p) s
            = cxa.drainLoop implNull prog f (some x)
                { s with rs := { reg := s.rs.reg
                                 next := updFn s.rs.next p none
                                 executed := s.rs.executed ++ [p] } } := by
          simp only [cxa.drainLoop, hexec]
          simp [hnp]
        simp only [List.head?]
        rw [key]
        have hres := ih f
          { s with rs := { reg := s.rs.reg
                           next := updFn s.rs.next p none
                           executed := s.rs.executed ++ [p] } }
          hndt
          (fun i hi => hprog i (List.mem_cons_of_mem _ hi))
          (by simpa using Nat.lt_succ_iff.mp (by simpa using hfuel))
          hreg
          (by
            intro y hy
            have hyp : y ≠ p := fun hc => hpt (hc ▸ hy)
            have h := hnext y (List.mem_cons_of_mem _ hy)
            simp only [chainFun, if_neg hyp] at h
            simpa [updFn, hyp] using h)
        simpa [List.append_assoc] using hres

/-- C2: for any duplicate-free list `rs` of nodes registered in that order
on one cxa thread, none of which registers further nodes from its
`const_drop`, the thread-exit drain executes exactly the registered nodes,
each once, in exact reverse registration order; and at the object level
`AtThreadLocalExit::register` answers `Ok` only on a `NonRegistered`
object, which it moves to `Registered`, where any further `register` call
answers `Err(Registered)` - so a node enters the registry at most once. -/
theorem c2_reverse_order_exactly_once (prog : Nat → List Nat) (rs : List Nat) (fuel : Nat)
    (hnd : rs.Nodup) (hp : ∀ i ∈ rs, prog i = []) (hf : rs.length ≤ fuel) :
    (cxa.execute_destroy false prog fuel (cxa.registerList rs cxa.cxaInit)).rs.executed
      = rs.reverse ∧
    (∀ (closed rote : Bool) (st : Status),
        (AtThreadLocalExit.register closed rote st).1 = some (Except.ok ()) →
          st = Status.NonRegistered ∧
          (AtThreadLocalExit.register closed rote st).2 = Status.Registered) ∧
    (∀ closed rote : Bool,
        AtThreadLocalExit.register closed rote Status.Registered
          = (some (Except.error Status.Registered), Status.Registered)) := by
  refine ⟨?_, ?_, fun _ _ => rfl⟩
  · have hreg := registerList_chain rs [] cxa.cxaInit rfl rfl
      (by intro x; simp [cxa.cxaInit, regInit, chainFun])
    obtain ⟨hd, hr, hn, he⟩ := hreg
    simp only [List.append_nil] at hr hn
    have hdrain := drain_chain false prog rs.reverse fuel
      { rs := { reg := none
                next := (cxa.registerList rs cxa.cxaInit).rs.next
                executed := (cxa.registerList rs cxa.cxaInit).rs.executed }
        destroying := true
        hooked := (cxa.registerList rs cxa.cxaInit).hooked }
      (List.nodup_reverse.mpr hnd)
      (fun i hi => hp i (List.mem_reverse.mp hi))
      (by simpa using hf)
      rfl
      (fun y _ => hn y)
    simp only [cxa.execute_destroy]
    rw [hr]
    rw [hdrain.1, he]
    simp [cxa.cxaInit, regInit]
  · intro closed rote st h
    cases st <;> cases closed <;> cases rote <;> simp_all [AtThreadLocalExit.register]

/-- Witness for C2: three nodes registered as 1, 2, 3 drain as 3, 2, 1. -/
theorem c2_witness_three_nodes :
    (cxa.execute_destroy false (fun _ => []) 3
        (cxa.registerList [1, 2, 3] cxa.cxaInit)).rs.executed = [3, 2, 1] :=
  (c2_reverse_order_exactly_once (fun _ => []) [1, 2, 3] 3 (by decide)
    (fun _ _ => rfl) (by decide)).1

/-- C10: every status-cell write of the code strictly advances the
`rank`, only along the edges NonRegistered→Registrating→Registered→
Executing→Executed and NonRegistered→RegistrationClosed, and never back
to `NonRegistered` - so `register` (which answers `Ok` only on a
`NonRegistered` object, moving it to `Registered`) answers `Ok` at most
once per object; and `execute` exposes `Executing` to the running
`const_drop` and leaves `Executed`. -/
theorem c10_status_monotone :
    (∀ s t : Status, CodeStep s t → rank s < rank t) ∧
    (∀ s t : Status, CodeStep s t → t ≠ Status.NonRegistered) ∧
    (∀ s t : Status, CodeStep s t →
        (s = Status.NonRegistered ∧ t = Status.RegistrationClosed) ∨
        (s = Status.NonRegistered ∧ t = Status.Registrating) ∨
        (s = Status.Registrating ∧ t = Status.Registered) ∨
        (s = Status.Registered ∧ t = Status.Executing) ∨
        (s = Status.Executing ∧ t = Status.Executed)) ∧
    (∀ (closed rote : Bool) (st : Status),
        (AtThreadLocalExit.register closed rote st).1 = some (Except.ok ()) →
          st = Status.NonRegistered ∧
          (AtThreadLocalExit.register closed rote st).2 = Status.Registered) ∧
    (∀ st : Status, AtThreadLocalExit.execute st = (Status.Executing, Status.Executed)) := by
  refine ⟨codeStep_rank_lt, codeStep_ne_nonRegistered, ?_, ?_, fun _ => rfl⟩
  · intro s t h
    cases h <;> simp
  · intro closed rote st h
    cases st <;> cases closed <;> cases rote <;>
      simp_all [AtThreadLocalExit.register]

/-- Witness for C10 at a concrete step: the registration write of line 83. -/
theorem c10_witness_step : rank Status.NonRegistered < rank Status.Registrating :=
  c10_status_monotone.1 Status.NonRegistered Status.Registrating CodeStep.startReg

/-- The spec-modelled Once invariant holds initially. -/
lemma onceInv_init (gen : Nat) : OnceInv gen onceInit := by
  refine ⟨?_, ?_, ?_, ?_, ?_, ?_⟩ <;> simp [onceInit, OnceInv]

/-- The spec-modelled Once invariant is preserved by every step of every
thread. -/
lemma onceInv_step (gen : Nat) (s : OnceState) (t : Nat) (h : OnceInv gen s) :
    OnceInv gen (onceStep gen s t) := by
  obtain ⟨hdone, hnew, hinig, hinid, hwin, huniq⟩ := h
  rcases hpc : s.pcs t with _ | _ | v
  · rcases hph : s.phase with _ | _ | _
    · -- start, phase New: compare-and-swap won, t becomes the winner
      refine ⟨?_, ?_, ?_, ?_, ?_, ?_⟩ <;>
        simp only [onceStep, hpc, hph]
      · intro u v hu
        by_cases hut : u = t <;> simp [hut, hpc] at hu
        exact absurd ((hdone u v hu).2) (by simp [hph])
      · simp
      · intro _
        exact hnew hph
      · simp
      · intro u hu
        trivial
      · intro u w hu hw
        by_cases hut : u = t <;> by_cases hwt : w = t <;>
            simp [hut, hwt, hpc] at hu hw
        · omega
        · exact absurd (hwin w hw) (by simp [hph])
        · exact absurd (hwin u hu) (by simp [hph])
        · exact huniq u w hu hw
    · -- start, phase Initializing: the loser parks, no change
      simpa only [onceStep, hpc, hph] using
        ⟨hdone, hnew, hinig, hinid, hwin, huniq⟩
    · -- start, phase Initialized: fast-path read of the stored value
      have hv := (hinid hph).2
      refine ⟨?_, ?_, ?_, ?_, ?_, ?_⟩ <;>
        simp only [onceStep, hpc, hph]
      · intro u w hu
        by_cases hut : u = t <;> simp [hut] at hu
        · refine ⟨?_, trivial⟩
          simp [hv] at hu
          omega
        · refine ⟨(hdone u w hu).1, trivial⟩
      · simp
      · simp
      · intro _
        refine ⟨(hinid hph).1, (hinid hph).2⟩
      · intro u hu
        by_cases hut : u = t <;> simp [hut] at hu
        exact absurd (hwin u hu) (by simp [hph])
      · intro u w hu hw
        by_cases hut : u = t <;> simp [hut] at hu
        by_cases hwt : w = t <;> simp [hwt] at hw
        exact huniq u w hu hw
  · -- winner: runs the generator, stores the value, publishes Initialized
    have hphase := hwin t hpc
    refine ⟨?_, ?_, ?_, ?_, ?_, ?_⟩ <;>
      simp only [onceStep, hpc]
    · intro u w hu
      by_cases hut : u = t <;> simp [hut] at hu
      · refine ⟨?_, trivial⟩
        omega
      · exact absurd ((hdone u w hu).2) (by simp [hphase])
    · simp
    · simp
    · intro _
      simp [hinig hphase]
    · intro u hu
      by_cases hut : u = t <;> simp [hut] at hu
      exact absurd (huniq u t hu hpc) hut
    · intro u w hu hw
      by_cases hut : u = t <;> simp [hut] at hu
      by_cases hwt : w = t <;> simp [hwt] at hw
      exact huniq u w hu hw
  · -- already done: no change
    simpa only [onceStep, hpc] using
      ⟨hdone, hnew, hinig, hinid, hwin, huniq⟩

/-- The invariant holds after any interleaving. -/
lemma onceInv_run (gen : Nat) (sched : List Nat) : OnceInv gen (onceRun gen sched) := by
  suffices h : ∀ (l : List Nat) (s : OnceState), OnceInv gen s →
      OnceInv gen (l.foldl (onceStep gen) s) by
    exact h sched onceInit (onceInv_init gen)
  intro l
  induction l with
  | nil => intro s hs; exact hs
  | cons t l ih => intro s hs; exact ih _ (onceInv_step gen s t hs)

/-- C7: under any interleaving of the racing first-accessors of one lazy
object in which the `N` threads (N > 0) all finished, the generator ran
exactly once and every thread observed the generator's value. -/
theorem c7_exactly_one_generator (gen : Nat) (sched : List Nat) (N : Nat)
    (hN : 0 < N)
    (hdone : ∀ t, t < N → ∃ v, (onceRun gen sched).pcs t = TPc.done v) :
    (onceRun gen sched).genCount = 1 ∧
    (∀ t, t < N → (onceRun gen sched).pcs t = TPc.done gen) := by
  obtain ⟨hdoneInv, _, _, hinid, _, _⟩ := onceInv_run gen sched
  obtain ⟨v0, hv0⟩ := hdone 0 hN
  have hph := (hdoneInv 0 v0 hv0).2
  refine ⟨(hinid hph).1, ?_⟩
  intro t ht
  obtain ⟨v, hv⟩ := hdone t ht
  have := (hdoneInv t v hv).1
  rw [hv, this]

/-- Witness for C7: two threads under the schedule [0, 0, 1] - thread 0
wins the compare-and-swap, runs the generator, thread 1 reads. -/
theorem c7_witness_two_threads : (onceRun 42 [0, 0, 1]).genCount = 1 :=
  (c7_exactly_one_generator 42 [0, 0, 1] 2 (by decide)
    (by
      intro t ht
      interval_cases t
      · exact ⟨42, rfl⟩
      · exact ⟨42, rfl⟩)).1

end StaticInit
